import Mathlib

/-!
Shallow embedding of the search & pagination engine of `src/search.ts`
(`searchConversations`, `searchMultipleConcepts`, `validateISODate`) from
the episodic-memory repository, together with proofs about it.

Modelling conventions:
* SQLite rows become a `Store` holding the `exchanges` table, the
  `vec_exchanges` membership (`hasEmbedding`, keyed by exchange id) and the
  vector distance of each stored embedding to the embedding of a query
  string (`dist`, a rational so that arithmetic is exact).
* `ORDER BY` clauses become `List.insertionSort` with the corresponding
  relation; `LIMIT k OFFSET o` becomes `(·.drop o).take k`.
* SQLite `LIKE '%q%'` is case-insensitive on ASCII; this is `likeContains`.
* SQLite TEXT comparison on ISO-8601 timestamps is bytewise, which on
  strings agrees with the lexicographic `≤` of `String`.
* JavaScript truthiness of an optional string parameter (`if (after) ...`)
  is `Option String` where `some ""` behaves like `none`.
* Thrown errors become `Except String`; the filesystem lookup of a summary
  file next to an archive is the `summaryOf` field of the store.
-/

/-- Character-list prefix test (bytewise, no case folding). -/
def isPrefOf : List Char → List Char → Bool
  | [], _ => true
  | _ :: _, [] => false
  | a :: as, b :: bs => a == b && isPrefOf as bs

/-- Character-list substring test. -/
def containsSub (n : List Char) : List Char → Bool
  | [] => n.isEmpty
  | c :: rest => isPrefOf n (c :: rest) || containsSub n rest

/-- Here `strContains hay needle` is the exact substring test on strings. -/
def strContains (hay needle : String) : Bool :=
  containsSub needle.data hay.data

/-- ASCII lower-casing, as used by SQLite's default `LIKE`. -/
def lowerAscii (c : Char) : Char :=
  if 'A' ≤ c && c ≤ 'Z' then Char.ofNat (c.toNat + 32) else c

/-- SQLite `field LIKE '%q%'`: case-insensitive (ASCII) substring match. -/
def likeContains (q field : String) : Bool :=
  containsSub (q.data.map lowerAscii) (field.data.map lowerAscii)

/-- Digit value of a character. -/
def digitVal (c : Char) : Nat := c.toNat - '0'.toNat

/-- The regex `^\d{4}-\d{2}-\d{2}$` of `validateISODate`. -/
def isoFormatOk (d : String) : Bool :=
  match d.data with
  | [y1, y2, y3, y4, s1, m1, m2, s2, d1, d2] =>
    y1.isDigit && y2.isDigit && y3.isDigit && y4.isDigit &&
    s1 == '-' && m1.isDigit && m2.isDigit &&
    s2 == '-' && d1.isDigit && d2.isDigit
  | _ => false

/-- Gregorian leap year, matching the ECMAScript `Date` calendar. -/
def isLeapYear (y : Nat) : Bool :=
  y % 4 == 0 && (y % 100 != 0 || y % 400 == 0)

/-- Days in a month (month is 1-based). -/
def daysInMonth (y m : Nat) : Nat :=
  if m == 2 then (if isLeapYear y then 29 else 28)
  else if m == 4 || m == 6 || m == 9 || m == 11 then 30
  else 31

/-- Whether a string already matching `isoFormatOk` denotes a real calendar
date; this is the condition under which `new Date(dateStr)` is valid for an
ISO `YYYY-MM-DD` string. -/
def isRealDate (d : String) : Bool :=
  match d.data with
  | [y1, y2, y3, y4, _, m1, m2, _, d1, d2] =>
    let y := ((digitVal y1 * 10 + digitVal y2) * 10 + digitVal y3) * 10 + digitVal y4
    let m := digitVal m1 * 10 + digitVal m2
    let dd := digitVal d1 * 10 + digitVal d2
    1 ≤ m && m ≤ 12 && 1 ≤ dd && dd ≤ daysInMonth y m
  | _ => false

/-- Model of `validateISODate` from `search.ts`: regex check, then calendar check,
throwing (here: returning `Except.error`) with the exact messages of the
source. -/
def validateISODate (dateStr paramName : String) : Except String Unit :=
  if !isoFormatOk dateStr then
    Except.error ("Invalid " ++ paramName ++ " date: \"" ++ dateStr ++
      "\". Expected YYYY-MM-DD format (e.g., 2025-10-01)")
  else if !isRealDate dateStr then
    Except.error ("Invalid " ++ paramName ++ " date: \"" ++ dateStr ++
      "\". Not a valid calendar date.")
  else
    Except.ok ()

/-- Model of `if (after) validateISODate(after, name)`: a missing or empty (falsy)
string is not validated. -/
def validateOpt (o : Option String) (paramName : String) : Except String Unit :=
  match o with
  | none => Except.ok ()
  | some s => if s.isEmpty then Except.ok () else validateISODate s paramName

/-- A row of the `exchanges` table (the fields selected by the queries in
`search.ts`). -/
structure Exchange where
  id : String
  project : String
  timestamp : String
  userMessage : String
  assistantMessage : String
  archivePath : String
  lineStart : Nat
  lineEnd : Nat
deriving DecidableEq, Repr

/-- The search mode of `SearchOptions`. -/
inductive Mode where
  | vector
  | text
  | both
deriving DecidableEq, Repr

/-- Model of `SearchOptions` with the defaults of `searchConversations`. -/
structure SearchOptions where
  limit : Nat := 10
  offset : Nat := 0
  mode : Mode := Mode.both
  after : Option String := none
  before : Option String := none
deriving DecidableEq, Repr

/-- The backing store: the `exchanges` table, the `vec_exchanges` index
(membership and per-query distances, keyed by exchange id), and the
filesystem's summary files (keyed by the summary path). -/
structure Store where
  exchanges : List Exchange
  hasEmbedding : String → Bool
  dist : String → String → ℚ
  summaryOf : String → Option String

/-- A fetched row: an exchange with its `distance` column. -/
abbrev Row := Exchange × ℚ

/-- The time filter (`e.timestamp >= after AND e.timestamp <= before`);
a falsy (absent or empty) bound imposes no condition. -/
def timePass (after before : Option String) (e : Exchange) : Bool :=
  (match after with
   | none => true
   | some a => if a.isEmpty then true else decide (a ≤ e.timestamp)) &&
  (match before with
   | none => true
   | some b => if b.isEmpty then true else decide (e.timestamp ≤ b))

/-- Ascending-distance order on rows (`ORDER BY vec.distance ASC`). -/
def distLe (a b : Row) : Prop := a.2 ≤ b.2

instance : DecidableRel distLe := fun a b => inferInstanceAs (Decidable (a.2 ≤ b.2))

instance : IsTotal Row distLe := ⟨fun a b => le_total a.2 b.2⟩

instance : IsTrans Row distLe := ⟨fun _ _ _ h h' => le_trans h h'⟩

/-- Descending-timestamp order on exchanges (`ORDER BY e.timestamp DESC`). -/
def tsDesc (a b : Exchange) : Prop := b.timestamp ≤ a.timestamp

instance : DecidableRel tsDesc := fun a b => inferInstanceAs (Decidable (b.timestamp ≤ a.timestamp))

instance : IsTotal Exchange tsDesc := ⟨fun a b => le_total b.timestamp a.timestamp⟩

instance : IsTrans Exchange tsDesc := ⟨fun _ _ _ h h' => le_trans h' h⟩

/-- All embedded exchanges passing the time filter, paired with their
distance to the query embedding (the rows the vector query ranges over). -/
def vectorRows (s : Store) (q : String) (after before : Option String) : List Row :=
  (s.exchanges.filter (fun e => s.hasEmbedding e.id && timePass after before e)).map
    (fun e => (e, s.dist q e.id))

/-- The vector query: `k` nearest rows, ordered by ascending distance
(`allVectorResults` in the source, fetched with `k = limit + offset`). -/
def allVector (s : Store) (q : String) (after before : Option String) (k : Nat) : List Row :=
  (List.insertionSort distLe (vectorRows s q after before)).take k

/-- All exchanges matching the `LIKE` condition and the time filter (what
the text `COUNT(*)` query counts). -/
def textRowsAll (s : Store) (q : String) (after before : Option String) : List Exchange :=
  s.exchanges.filter (fun e =>
    (likeContains q e.userMessage || likeContains q e.assistantMessage) &&
    timePass after before e)

/-- The text matches ordered by `timestamp DESC`. -/
def sortedText (s : Store) (q : String) (after before : Option String) : List Exchange :=
  List.insertionSort tsDesc (textRowsAll s q after before)

/-- The first `k` text matches by recency, carrying the placeholder
`0 as distance` of the text query. -/
def textWindow (s : Store) (q : String) (after before : Option String) (k : Nat) : List Row :=
  ((sortedText s q after before).take k).map (fun e => (e, (0 : ℚ)))

/-- A returned search result (`SearchResult` plus the optional summary). -/
structure SearchResult where
  exchange : Exchange
  similarity : Option ℚ
  snippet : String
  summary : Option String
deriving DecidableEq, Repr

/-- Pagination metadata. -/
structure PaginationMeta where
  total : Nat
  limit : Nat
  offset : Nat
  hasMore : Bool
  nextOffset : Option Nat
deriving DecidableEq, Repr

/-- Model of `SearchResultWithPagination`. -/
structure SearchResultWithPagination where
  results : List SearchResult
  pagination : PaginationMeta
deriving DecidableEq, Repr

/-- Whitespace-collapsing of `.replace(/\s+/g, ' ')`: every maximal run of
whitespace becomes a single space (single right-to-left pass). -/
def collapseWs : List Char → List Char
  | [] => []
  | c :: rest =>
    let tail := collapseWs rest
    if c.isWhitespace then
      match tail with
      | ' ' :: _ => tail
      | _ => ' ' :: tail
    else c :: tail

/-- Model of `.trim()`: strip whitespace from both ends. -/
def trimChars (l : List Char) : List Char :=
  ((l.dropWhile Char.isWhitespace).reverse.dropWhile Char.isWhitespace).reverse

/-- The snippet: first 200 characters of the user message, whitespace
collapsed and trimmed, with an ellipsis when truncated. -/
def mkSnippet (userMessage : String) : String :=
  String.mk (trimChars (collapseWs (userMessage.data.take 200))) ++
    (if userMessage.data.length > 200 then "..." else "")

/-- The summary lookup: read `archivePath` with `.jsonl` replaced by
`-summary.txt` and trim it (the JS `replace` rewrites the first occurrence;
archive paths contain the extension once). -/
def loadSummary (s : Store) (archivePath : String) : Option String :=
  (s.summaryOf (archivePath.replace ".jsonl" "-summary.txt")).map String.trim

/-- The row-to-result mapping at the end of `searchConversations`:
`similarity` is `undefined` exactly in text mode, otherwise `1 - distance`. -/
def mkSearchResult (s : Store) (mode : Mode) (r : Row) : SearchResult :=
  { exchange := r.1
    similarity := if mode = Mode.text then none else some (1 - r.2)
    snippet := mkSnippet r.1.userMessage
    summary := loadSummary s r.1.archivePath }

/-- The pagination record built at the end of both search functions, from
the reported total and the number of returned results. -/
def mkPagination (total limit offset returned : Nat) : PaginationMeta :=
  { total := total
    limit := limit
    offset := offset
    hasMore := decide (offset + returned < total)
    nextOffset := if offset + returned < total then some (offset + limit) else none }

/-- Combined-mode merge: vector candidates first, then the text candidates
whose id was not seen among the vector candidates. -/
def bothMerged (s : Store) (q : String) (limit offset : Nat)
    (after before : Option String) : List Row :=
  let av := allVector s q after before (limit + offset)
  av ++ (textWindow s q after before (limit + offset)).filter
    (fun r => !(av.any (fun v => v.1.id == r.1.id)))

/-- The page rows and reported total for each mode (the body of
`searchConversations` after validation). -/
def searchRows (s : Store) (q : String) (opts : SearchOptions) : List Row × Nat :=
  match opts.mode with
  | Mode.vector =>
    let av := allVector s q opts.after opts.before (opts.limit + opts.offset)
    ((av.drop opts.offset).take opts.limit, av.length)
  | Mode.text =>
    (((((sortedText s q opts.after opts.before).drop opts.offset).take opts.limit)).map
        (fun e => (e, (0 : ℚ))),
      (textRowsAll s q opts.after opts.before).length)
  | Mode.both =>
    let merged := bothMerged s q opts.limit opts.offset opts.after opts.before
    ((merged.drop opts.offset).take opts.limit, merged.length)

/-- The successful result of `searchConversations`. -/
def searchCore (s : Store) (q : String) (opts : SearchOptions) : SearchResultWithPagination :=
  let rt := searchRows s q opts
  let searchResults := rt.1.map (mkSearchResult s opts.mode)
  { results := searchResults
    pagination := mkPagination rt.2 opts.limit opts.offset searchResults.length }

/-- Model of `searchConversations`: date validation (after, then before), then the
pure query pipeline. -/
def searchConversations (s : Store) (q : String) (opts : SearchOptions) :
    Except String SearchResultWithPagination :=
  match validateOpt opts.after "--after" with
  | Except.error msg => Except.error msg
  | Except.ok _ =>
    match validateOpt opts.before "--before" with
    | Except.error msg => Except.error msg
    | Except.ok _ => Except.ok (searchCore s q opts)

/-- Model of `MultiConceptResult`. -/
structure MultiConceptResult where
  exchange : Exchange
  snippet : String
  conceptSimilarities : List ℚ
  averageSimilarity : ℚ
deriving DecidableEq, Repr

/-- Model of `MultiConceptResultWithPagination`. -/
structure MultiConceptResultWithPagination where
  results : List MultiConceptResult
  pagination : PaginationMeta
deriving DecidableEq, Repr

/-- Model of `Promise.all` over per-concept searches: the first failure rejects the
whole call, otherwise all results are collected in order. -/
def mapExcept (f : α → Except ε β) : List α → Except ε (List β)
  | [] => Except.ok []
  | a :: as =>
    match f a with
    | Except.error e => Except.error e
    | Except.ok b =>
      match mapExcept f as with
      | Except.error e => Except.error e
      | Except.ok bs => Except.ok (b :: bs)

/-- The per-concept retrieval of `searchMultipleConcepts`: the options are
passed through with `limit` replaced by `limit * 5 + offset` and the mode
forced to vector (the outer `offset`, `after`, `before` are inherited). -/
def conceptRetrieval (s : Store) (opts : SearchOptions) (concept : String) :
    Except String SearchResultWithPagination :=
  searchConversations s concept
    { opts with limit := opts.limit * 5 + opts.offset, mode := Mode.vector }

/-- All (result, conceptIndex) pairs in insertion order of the JS
`conversationMap` (concept index outer, result order inner). -/
def pairsOf (conceptResults : List SearchResultWithPagination) :
    List (SearchResult × Nat) :=
  (conceptResults.enum.map (fun p => p.2.results.map (fun r => (r, p.1)))).flatten

/-- First-occurrence-order deduplication (JS `Map` key order / `Set`
cardinality). -/
def dedupKeep [DecidableEq α] (l : List α) : List α :=
  l.foldl (fun acc k => if k ∈ acc then acc else acc ++ [k]) []

/-- The `conversationMap` entry for one archive path. -/
def groupFor (pairs : List (SearchResult × Nat)) (key : String) :
    List (SearchResult × Nat) :=
  pairs.filter (fun p => p.1.exchange.archivePath == key)

/-- The intersection step: conversations represented by all `n` concepts,
with per-concept similarities (`result?.similarity || 0`) and their mean. -/
def buildMulti (n : Nat) (pairs : List (SearchResult × Nat)) :
    List MultiConceptResult :=
  (dedupKeep (pairs.map (fun p => p.1.exchange.archivePath))).filterMap (fun key =>
    let group := groupFor pairs key
    if (dedupKeep (group.map (fun p => p.2))).length == n then
      match group with
      | [] => none
      | first :: _ =>
        let sims := (List.range n).map (fun i =>
          (((group.find? (fun p => p.2 == i)).bind (fun p => p.1.similarity)).getD 0))
        some { exchange := first.1.exchange
               snippet := first.1.snippet
               conceptSimilarities := sims
               averageSimilarity := sims.sum / (sims.length : ℚ) }
    else none)

/-- Descending order by average similarity (the JS sort comparator
`b.averageSimilarity - a.averageSimilarity`). -/
def avgGe (a b : MultiConceptResult) : Prop :=
  b.averageSimilarity ≤ a.averageSimilarity

instance : DecidableRel avgGe :=
  fun a b => inferInstanceAs (Decidable (b.averageSimilarity ≤ a.averageSimilarity))

instance : IsTotal MultiConceptResult avgGe :=
  ⟨fun a b => le_total b.averageSimilarity a.averageSimilarity⟩

instance : IsTrans MultiConceptResult avgGe := ⟨fun _ _ _ h h' => le_trans h' h⟩

/-- The intersection output, sorted by average similarity descending. -/
def multiSorted (n : Nat) (conceptResults : List SearchResultWithPagination) :
    List MultiConceptResult :=
  List.insertionSort avgGe (buildMulti n (pairsOf conceptResults))

/-- Pagination and page construction of `searchMultipleConcepts` after the
intersection step. -/
def multiCore (n limit offset : Nat)
    (conceptResults : List SearchResultWithPagination) :
    MultiConceptResultWithPagination :=
  let sorted := multiSorted n conceptResults
  let page := (sorted.drop offset).take limit
  { results := page
    pagination := mkPagination sorted.length limit offset page.length }

/-- Model of `searchMultipleConcepts`: empty-concept short-circuit, per-concept
vector retrieval, intersection, sort, pagination. -/
def searchMultipleConcepts (s : Store) (concepts : List String)
    (opts : SearchOptions) : Except String MultiConceptResultWithPagination :=
  if concepts.isEmpty then
    Except.ok
      { results := []
        pagination :=
          { total := 0, limit := opts.limit, offset := opts.offset
            hasMore := false, nextOffset := none } }
  else
    match mapExcept (conceptRetrieval s opts) concepts with
    | Except.error msg => Except.error msg
    | Except.ok conceptResults =>
      Except.ok (multiCore concepts.length opts.limit opts.offset conceptResults)

deriving instance DecidableEq for Except

/-- A successful `searchConversations` call returns exactly `searchCore`. -/
theorem searchConversations_ok {s : Store} {q : String} {opts : SearchOptions}
    {r : SearchResultWithPagination}
    (h : searchConversations s q opts = Except.ok r) : r = searchCore s q opts := by
  unfold searchConversations at h
  split at h
  · exact Except.noConfusion h
  · split at h
    · exact Except.noConfusion h
    · exact (Except.ok.inj h).symm

/-- The two pagination invariants hold for any `mkPagination` record. -/
theorem mkPagination_spec (t l o n : Nat) :
    (mkPagination t l o n).hasMore = decide (o + n < t) ∧
    (mkPagination t l o n).nextOffset =
      (if (mkPagination t l o n).hasMore = true then some (o + l) else none) := by
  constructor
  · rfl
  · by_cases h : o + n < t <;> simp [mkPagination, h]

/-- A successful non-empty `searchMultipleConcepts` call returns
`multiCore` applied to some per-concept results. -/
theorem searchMultipleConcepts_ok {s : Store} {concepts : List String}
    {opts : SearchOptions} {r : MultiConceptResultWithPagination}
    (hne : concepts ≠ [])
    (h : searchMultipleConcepts s concepts opts = Except.ok r) :
    ∃ cr, mapExcept (conceptRetrieval s opts) concepts = Except.ok cr ∧
      r = multiCore concepts.length opts.limit opts.offset cr := by
  unfold searchMultipleConcepts at h
  rw [if_neg (by simpa using hne)] at h
  split at h
  · exact Except.noConfusion h
  · next cr hcr => exact ⟨cr, hcr, (Except.ok.inj h).symm⟩

/-- The pagination invariants, stated against `searchCore`. -/
theorem searchCore_pagination (s : Store) (q : String) (opts : SearchOptions) :
    (searchCore s q opts).pagination.hasMore =
      decide ((searchCore s q opts).pagination.offset +
        (searchCore s q opts).results.length < (searchCore s q opts).pagination.total) ∧
    (searchCore s q opts).pagination.nextOffset =
      (if (searchCore s q opts).pagination.hasMore = true then
        some ((searchCore s q opts).pagination.offset + (searchCore s q opts).pagination.limit)
      else none) := by
  constructor
  · rfl
  · by_cases h :
      opts.offset + ((searchRows s q opts).1.map (mkSearchResult s opts.mode)).length <
        (searchRows s q opts).2 <;>
    simp [searchCore, mkPagination, h]

/-- The pagination invariants, stated against `multiCore`. -/
theorem multiCore_pagination (n limit offset : Nat)
    (cr : List SearchResultWithPagination) :
    (multiCore n limit offset cr).pagination.hasMore =
      decide ((multiCore n limit offset cr).pagination.offset +
        (multiCore n limit offset cr).results.length <
        (multiCore n limit offset cr).pagination.total) ∧
    (multiCore n limit offset cr).pagination.nextOffset =
      (if (multiCore n limit offset cr).pagination.hasMore = true then
        some ((multiCore n limit offset cr).pagination.offset +
          (multiCore n limit offset cr).pagination.limit)
      else none) := by
  constructor
  · rfl
  · by_cases h :
      offset + (((multiSorted n cr).drop offset).take limit).length <
        (multiSorted n cr).length <;>
    simp [multiCore, mkPagination, h]

/-- C1: every returned page (single-query in any mode, and multi-concept)
satisfies `hasMore = (offset + results.length < total)` and carries
`nextOffset` exactly when `hasMore`, in which case it is `offset + limit`. -/
theorem c1_pagination_invariant (s : Store) (q : String) (concepts : List String)
    (opts : SearchOptions) :
    (∀ r, searchConversations s q opts = Except.ok r →
      r.pagination.hasMore =
        decide (r.pagination.offset + r.results.length < r.pagination.total) ∧
      r.pagination.nextOffset =
        (if r.pagination.hasMore = true then
          some (r.pagination.offset + r.pagination.limit) else none)) ∧
    (∀ r, searchMultipleConcepts s concepts opts = Except.ok r →
      r.pagination.hasMore =
        decide (r.pagination.offset + r.results.length < r.pagination.total) ∧
      r.pagination.nextOffset =
        (if r.pagination.hasMore = true then
          some (r.pagination.offset + r.pagination.limit) else none)) := by
  constructor
  · intro r h
    rw [searchConversations_ok h]
    exact searchCore_pagination s q opts
  · intro r h
    rcases eq_or_ne concepts [] with hc | hc
    · subst hc
      unfold searchMultipleConcepts at h
      simp only [List.isEmpty_nil, if_pos] at h
      rw [← Except.ok.inj h]
      simp
    · obtain ⟨cr, _, hr⟩ := searchMultipleConcepts_ok hc h
      rw [hr]
      exact multiCore_pagination concepts.length opts.limit opts.offset cr

def emptyStore : Store := ⟨[], fun _ => false, fun _ _ => 0, fun _ => none⟩

def emptyPage : SearchResultWithPagination := ⟨[], ⟨0, 10, 0, false, none⟩⟩

def emptyMulti : MultiConceptResultWithPagination := ⟨[], ⟨0, 10, 0, false, none⟩⟩

/-- Witness for C1 at a concrete call. -/
theorem c1_pagination_invariant_witness :
    emptyPage.pagination.hasMore =
      decide (emptyPage.pagination.offset + emptyPage.results.length <
        emptyPage.pagination.total) ∧
    emptyPage.pagination.nextOffset =
      (if emptyPage.pagination.hasMore = true then
        some (emptyPage.pagination.offset + emptyPage.pagination.limit) else none) :=
  (c1_pagination_invariant emptyStore "q" ["c"] {}).1 emptyPage (by decide)

/-- C7: `searchMultipleConcepts` with an empty concepts list returns the
empty page with `total = 0` and `hasMore = false`, identically for every
store (so no embedding or retrieval is performed). -/
theorem c7_empty_concepts (s s' : Store) (opts : SearchOptions) :
    searchMultipleConcepts s [] opts =
      Except.ok
        { results := []
          pagination :=
            { total := 0, limit := opts.limit, offset := opts.offset
              hasMore := false, nextOffset := none } } ∧
    searchMultipleConcepts s [] opts = searchMultipleConcepts s' [] opts :=
  ⟨rfl, rfl⟩

/-- If the reported total is at most the offset, the page of rows is empty
(in every mode). -/
theorem searchRows_page_nil {s : Store} {q : String} {opts : SearchOptions}
    (h : (searchRows s q opts).2 ≤ opts.offset) : (searchRows s q opts).1 = [] := by
  cases hm : opts.mode with
  | vector =>
    simp only [searchRows, hm] at h ⊢
    rw [List.drop_eq_nil_of_le h, List.take_nil]
  | text =>
    simp only [searchRows, hm] at h ⊢
    have hlen : (sortedText s q opts.after opts.before).length ≤ opts.offset := by
      simpa [sortedText,
        (List.perm_insertionSort tsDesc (textRowsAll s q opts.after opts.before)).length_eq]
        using h
    rw [List.drop_eq_nil_of_le hlen, List.take_nil, List.map_nil]
  | both =>
    simp only [searchRows, hm] at h ⊢
    rw [List.drop_eq_nil_of_le h, List.take_nil]

/-- Offset at or beyond the total: empty page, `hasMore = false`, no
`nextOffset` (single-query core, any mode). -/
theorem searchCore_offset_beyond {s : Store} {q : String} {opts : SearchOptions}
    (h : (searchCore s q opts).pagination.total ≤ opts.offset) :
    (searchCore s q opts).results = [] ∧
    (searchCore s q opts).pagination.hasMore = false ∧
    (searchCore s q opts).pagination.nextOffset = none := by
  have h' : (searchRows s q opts).2 ≤ opts.offset := h
  have hnil := searchRows_page_nil h'
  unfold searchCore
  simp only [hnil, List.map_nil, mkPagination, List.length_nil, Nat.add_zero]
  refine ⟨by trivial, ?_, ?_⟩
  · simp only [decide_eq_false_iff_not]
    omega
  · rw [if_neg (by omega)]

/-- Offset at or beyond the total for the multi-concept core. -/
theorem multiCore_offset_beyond {n l o : Nat} {cr : List SearchResultWithPagination}
    (h : (multiCore n l o cr).pagination.total ≤ o) :
    (multiCore n l o cr).results = [] ∧
    (multiCore n l o cr).pagination.hasMore = false ∧
    (multiCore n l o cr).pagination.nextOffset = none := by
  have h' : (multiSorted n cr).length ≤ o := h
  unfold multiCore
  simp only [List.drop_eq_nil_of_le h', List.take_nil, mkPagination, List.length_nil,
    Nat.add_zero]
  refine ⟨by trivial, ?_, ?_⟩
  · simp only [decide_eq_false_iff_not]
    omega
  · rw [if_neg (by omega)]

/-- C8: in every mode and for multi-concept search, a requested offset at or
beyond the reported total yields an empty result list, `hasMore = false`,
and no `nextOffset`. -/
theorem c8_offset_beyond_total (s : Store) (q : String) (concepts : List String)
    (opts : SearchOptions) :
    (∀ r, searchConversations s q opts = Except.ok r →
      r.pagination.total ≤ opts.offset →
      r.results = [] ∧ r.pagination.hasMore = false ∧
        r.pagination.nextOffset = none) ∧
    (∀ r, searchMultipleConcepts s concepts opts = Except.ok r →
      r.pagination.total ≤ opts.offset →
      r.results = [] ∧ r.pagination.hasMore = false ∧
        r.pagination.nextOffset = none) := by
  constructor
  · intro r h hoff
    rw [searchConversations_ok h] at hoff ⊢
    exact searchCore_offset_beyond hoff
  · intro r h hoff
    rcases eq_or_ne concepts [] with hc | hc
    · subst hc
      unfold searchMultipleConcepts at h
      simp only [List.isEmpty_nil, if_pos] at h
      rw [← Except.ok.inj h]
      exact ⟨rfl, rfl, rfl⟩
    · obtain ⟨cr, _, hr⟩ := searchMultipleConcepts_ok hc h
      rw [hr] at hoff ⊢
      exact multiCore_offset_beyond hoff

/-- Witness for C8 at a concrete call (empty store, so total = 0 = offset). -/
theorem c8_offset_beyond_total_witness :
    emptyPage.results = [] ∧ emptyPage.pagination.hasMore = false ∧
      emptyPage.pagination.nextOffset = none :=
  (c8_offset_beyond_total emptyStore "q" ["c"] {}).1 emptyPage (by decide) (by decide)

/-- C9: in vector mode the reported total is the number of candidates
actually fetched (at most `limit + offset`), so the page can never signal
a further page: `hasMore = false` and `nextOffset` is absent. -/
theorem c9_vector_mode_never_has_more (s : Store) (q : String)
    (opts : SearchOptions) (hm : opts.mode = Mode.vector) :
    ∀ r, searchConversations s q opts = Except.ok r →
      r.pagination.total =
        (allVector s q opts.after opts.before (opts.limit + opts.offset)).length ∧
      r.pagination.total ≤ opts.limit + opts.offset ∧
      r.pagination.hasMore = false ∧
      r.pagination.nextOffset = none := by
  intro r h
  rw [searchConversations_ok h]
  have hbound :
      (allVector s q opts.after opts.before (opts.limit + opts.offset)).length ≤
        opts.limit + opts.offset := by
    unfold allVector
    rw [List.length_take]
    exact Nat.min_le_left _ _
  have hlen :
      (((allVector s q opts.after opts.before (opts.limit + opts.offset)).drop
          opts.offset).take opts.limit).length =
        min opts.limit
          ((allVector s q opts.after opts.before (opts.limit + opts.offset)).length -
            opts.offset) := by
    rw [List.length_take, List.length_drop]
  unfold searchCore searchRows
  rw [hm]
  simp only [mkPagination, List.length_map]
  refine ⟨by trivial, hbound, ?_, ?_⟩
  · simp only [decide_eq_false_iff_not]
    omega
  · rw [if_neg (by omega)]

/-- Witness for C9 at a concrete vector-mode call. -/
theorem c9_vector_mode_never_has_more_witness :
    emptyPage.pagination.total =
      (allVector emptyStore "q" none none (10 + 0)).length ∧
    emptyPage.pagination.total ≤ 10 + 0 ∧
    emptyPage.pagination.hasMore = false ∧
    emptyPage.pagination.nextOffset = none :=
  c9_vector_mode_never_has_more emptyStore "q" { mode := Mode.vector } rfl
    emptyPage (by decide)

theorem isPrefOf_append (n s : List Char) : isPrefOf n (n ++ s) = true := by
  induction n with
  | nil => rfl
  | cons c cs ih => simp [isPrefOf, ih]

theorem containsSub_cons (n : List Char) (c : Char) (l : List Char)
    (h : containsSub n l = true) : containsSub n (c :: l) = true := by
  simp [containsSub, h]

theorem containsSub_here (n s : List Char) : containsSub n (n ++ s) = true := by
  cases n with
  | nil => cases s <;> simp [containsSub, isPrefOf]
  | cons c cs =>
    have hp := isPrefOf_append (c :: cs) s
    simp only [List.cons_append] at hp
    simp [containsSub, hp]

theorem containsSub_infix (p n s : List Char) :
    containsSub n (p ++ (n ++ s)) = true := by
  induction p with
  | nil => exact containsSub_here n s
  | cons a p ih => exact containsSub_cons _ _ _ ih

theorem strContains_of_data (hay needle : String) (pre suf : List Char)
    (h : hay.data = pre ++ (needle.data ++ suf)) : strContains hay needle = true := by
  unfold strContains
  rw [h]
  exact containsSub_infix pre needle.data suf

/-- A date that fails the regex or the calendar check makes
`validateISODate` fail with a message containing both the parameter name
and the offending value. -/
theorem validateISODate_error (d p : String)
    (hbad : (isoFormatOk d && isRealDate d) = false) :
    ∃ msg, validateISODate d p = Except.error msg ∧
      strContains msg p = true ∧ strContains msg d = true := by
  by_cases h1 : isoFormatOk d = true
  · have h2 : isRealDate d = false := by simpa [h1] using hbad
    refine ⟨"Invalid " ++ p ++ " date: \"" ++ d ++ "\". Not a valid calendar date.",
      ?_, ?_, ?_⟩
    · simp [validateISODate, h1, h2]
    · exact strContains_of_data _ _ ("Invalid ".data)
        ((" date: \"" ++ d ++ "\". Not a valid calendar date.").data)
        (by simp [String.data_append, List.append_assoc])
    · exact strContains_of_data _ _ (("Invalid " ++ p ++ " date: \"").data)
        ("\". Not a valid calendar date.".data)
        (by simp [String.data_append, List.append_assoc])
  · have h1' : isoFormatOk d = false := by simpa using h1
    refine ⟨"Invalid " ++ p ++ " date: \"" ++ d ++
      "\". Expected YYYY-MM-DD format (e.g., 2025-10-01)", ?_, ?_, ?_⟩
    · simp [validateISODate, h1']
    · exact strContains_of_data _ _ ("Invalid ".data)
        ((" date: \"" ++ d ++ "\". Expected YYYY-MM-DD format (e.g., 2025-10-01)").data)
        (by simp [String.data_append, List.append_assoc])
    · exact strContains_of_data _ _ (("Invalid " ++ p ++ " date: \"").data)
        ("\". Expected YYYY-MM-DD format (e.g., 2025-10-01)".data)
        (by simp [String.data_append, List.append_assoc])

/-- A date option passes validation exactly when it is absent, empty
(falsy), or a well-formed real calendar date. -/
def dateOk (o : Option String) : Bool :=
  match o with
  | none => true
  | some s => s.isEmpty || (isoFormatOk s && isRealDate s)

theorem validateOpt_ok {o : Option String} {p : String} (h : dateOk o = true) :
    validateOpt o p = Except.ok () := by
  cases o with
  | none => rfl
  | some s =>
    by_cases he : s.isEmpty = true
    · simp [validateOpt, he]
    · have hb : (isoFormatOk s && isRealDate s) = true := by
        simpa [dateOk, he] using h
      obtain ⟨hf, hr⟩ := Bool.and_eq_true_iff.mp hb
      simp [validateOpt, he, validateISODate, hf, hr]

theorem validateOpt_error {o : Option String} {p : String} (h : dateOk o = false) :
    ∃ a msg, o = some a ∧ validateOpt o p = Except.error msg ∧
      strContains msg p = true ∧ strContains msg a = true := by
  cases o with
  | none => simp [dateOk] at h
  | some s =>
    have h' : (s.isEmpty || (isoFormatOk s && isRealDate s)) = false := h
    obtain ⟨he, hbad⟩ := Bool.or_eq_false_iff.mp h'
    obtain ⟨msg, hv, hp, hd⟩ := validateISODate_error s p hbad
    exact ⟨s, msg, rfl, by simp [validateOpt, he, hv], hp, hd⟩

/-- With passing date validation, `searchConversations` is `searchCore`. -/
theorem searchConversations_eq_ok {s : Store} {q : String} {opts : SearchOptions}
    (h1 : dateOk opts.after = true) (h2 : dateOk opts.before = true) :
    searchConversations s q opts = Except.ok (searchCore s q opts) := by
  unfold searchConversations
  rw [validateOpt_ok h1, validateOpt_ok h2]

theorem mapExcept_ok_of {α β ε : Type} (f : α → Except ε β) (g : α → β) (l : List α)
    (h : ∀ a ∈ l, f a = Except.ok (g a)) : mapExcept f l = Except.ok (l.map g) := by
  induction l with
  | nil => rfl
  | cons a as ih =>
    have ha := h a (by simp)
    have hrest := ih (fun x hx => h x (by simp [hx]))
    simp [mapExcept, ha, hrest]

/-- C4 counterexample: `searchMultipleConcepts` with an empty concepts list
and `after = "not-a-date"` (which matches neither the format nor a real
date) returns successfully instead of failing: the empty-concepts
short-circuit precedes all validation. -/
theorem c4_counterexample :
    searchMultipleConcepts emptyStore [] { after := some "not-a-date" } =
      Except.ok emptyMulti := by
  rfl

/-- C4 amended: for `searchConversations` (always), and for
`searchMultipleConcepts` with a non-empty concepts list, a supplied
non-empty `after`/`before` that fails the format or calendar check makes
the call fail with an error message containing the parameter name and the
offending value, with a result independent of the store (hence before any
embedding, retrieval or store access); when both checks pass, no error is
raised. (The unamended claim fails for the empty-concepts short-circuit and
for empty date strings, which JavaScript truthiness treats as absent.) -/
theorem c4_amended_date_validation (s s' : Store) (q : String)
    (concepts : List String) (opts : SearchOptions) :
    (dateOk opts.after = false →
      (∃ a msg, opts.after = some a ∧
        searchConversations s q opts = Except.error msg ∧
        strContains msg "--after" = true ∧ strContains msg a = true) ∧
      searchConversations s q opts = searchConversations s' q opts) ∧
    (dateOk opts.after = true → dateOk opts.before = false →
      (∃ b msg, opts.before = some b ∧
        searchConversations s q opts = Except.error msg ∧
        strContains msg "--before" = true ∧ strContains msg b = true) ∧
      searchConversations s q opts = searchConversations s' q opts) ∧
    (dateOk opts.after = true → dateOk opts.before = true →
      ∃ r, searchConversations s q opts = Except.ok r) ∧
    (concepts ≠ [] → dateOk opts.after = false →
      (∃ a msg, opts.after = some a ∧
        searchMultipleConcepts s concepts opts = Except.error msg ∧
        strContains msg "--after" = true ∧ strContains msg a = true) ∧
      searchMultipleConcepts s concepts opts =
        searchMultipleConcepts s' concepts opts) ∧
    (concepts ≠ [] → dateOk opts.after = true → dateOk opts.before = false →
      (∃ b msg, opts.before = some b ∧
        searchMultipleConcepts s concepts opts = Except.error msg ∧
        strContains msg "--before" = true ∧ strContains msg b = true) ∧
      searchMultipleConcepts s concepts opts =
        searchMultipleConcepts s' concepts opts) ∧
    (dateOk opts.after = true → dateOk opts.before = true →
      ∃ r, searchMultipleConcepts s concepts opts = Except.ok r) := by
  have searchErrAfter : ∀ (st : Store) (qq : String), dateOk opts.after = false →
      ∃ a msg, opts.after = some a ∧
        searchConversations st qq opts = Except.error msg ∧
        strContains msg "--after" = true ∧ strContains msg a = true := by
    intro st qq h
    obtain ⟨a, msg, ho, hv, hp, hd⟩ := validateOpt_error (p := "--after") h
    exact ⟨a, msg, ho, by unfold searchConversations; rw [hv], hp, hd⟩
  have searchErrBefore : ∀ (st : Store) (qq : String), dateOk opts.after = true →
      dateOk opts.before = false →
      ∃ b msg, opts.before = some b ∧
        searchConversations st qq opts = Except.error msg ∧
        strContains msg "--before" = true ∧ strContains msg b = true := by
    intro st qq h1 h2
    obtain ⟨b, msg, ho, hv, hp, hd⟩ := validateOpt_error (p := "--before") h2
    refine ⟨b, msg, ho, ?_, hp, hd⟩
    unfold searchConversations
    rw [validateOpt_ok h1, hv]
  have multiUnfold : ∀ (st : Store) (c : String) (cs : List String),
      searchMultipleConcepts st (c :: cs) opts =
        match mapExcept (conceptRetrieval st opts) (c :: cs) with
        | Except.error msg => Except.error msg
        | Except.ok cr => Except.ok (multiCore (c :: cs).length opts.limit opts.offset cr) := by
    intro st c cs
    unfold searchMultipleConcepts
    rw [if_neg (by simp)]
  refine ⟨?_, ?_, ?_, ?_, ?_, ?_⟩
  · intro h
    obtain ⟨a, msg, ho, he, hp, hd⟩ := searchErrAfter s q h
    obtain ⟨a', msg', ho', he', _, _⟩ := searchErrAfter s' q h
    refine ⟨⟨a, msg, ho, he, hp, hd⟩, ?_⟩
    rw [he, he']
    obtain ⟨a2, msg2, ho2, hv2, _, _⟩ := validateOpt_error (p := "--after") h
    unfold searchConversations at he he'
    rw [hv2] at he he'
    rw [← Except.error.inj he, ← Except.error.inj he']
  · intro h1 h2
    obtain ⟨b, msg, ho, he, hp, hd⟩ := searchErrBefore s q h1 h2
    obtain ⟨b', msg', ho', he', _, _⟩ := searchErrBefore s' q h1 h2
    refine ⟨⟨b, msg, ho, he, hp, hd⟩, ?_⟩
    obtain ⟨b2, msg2, ho2, hv2, _, _⟩ := validateOpt_error (p := "--before") h2
    unfold searchConversations at he he' ⊢
    rw [validateOpt_ok h1, hv2] at he he' ⊢
  · intro h1 h2
    exact ⟨searchCore s q opts, searchConversations_eq_ok h1 h2⟩
  · intro hne h
    cases concepts with
    | nil => exact absurd rfl hne
    | cons c cs =>
      obtain ⟨a, msg, ho, hv, hp, hd⟩ := validateOpt_error (p := "--after") h
      have herr : ∀ st : Store, mapExcept (conceptRetrieval st opts) (c :: cs) =
          Except.error msg := by
        intro st
        have hv' : validateOpt ({ opts with limit := opts.limit * 5 + opts.offset, mode := Mode.vector } : SearchOptions).after "--after" = Except.error msg := hv
        have hc : conceptRetrieval st opts c = Except.error msg := by
          unfold conceptRetrieval searchConversations
          rw [hv']
        simp [mapExcept, hc]
      refine ⟨⟨a, msg, ho, ?_, hp, hd⟩, ?_⟩
      · rw [multiUnfold s c cs, herr s]
      · rw [multiUnfold s c cs, multiUnfold s' c cs, herr s, herr s']
  · intro hne h1 h2
    cases concepts with
    | nil => exact absurd rfl hne
    | cons c cs =>
      obtain ⟨b, msg, ho, hv, hp, hd⟩ := validateOpt_error (p := "--before") h2
      have herr : ∀ st : Store, mapExcept (conceptRetrieval st opts) (c :: cs) =
          Except.error msg := by
        intro st
        have h1' : validateOpt ({ opts with limit := opts.limit * 5 + opts.offset, mode := Mode.vector } : SearchOptions).after "--after" = Except.ok () := validateOpt_ok h1
        have hv' : validateOpt ({ opts with limit := opts.limit * 5 + opts.offset, mode := Mode.vector } : SearchOptions).before "--before" = Except.error msg := hv
        have hc : conceptRetrieval st opts c = Except.error msg := by
          unfold conceptRetrieval searchConversations
          rw [h1', hv']
        simp [mapExcept, hc]
      refine ⟨⟨b, msg, ho, ?_, hp, hd⟩, ?_⟩
      · rw [multiUnfold s c cs, herr s]
      · rw [multiUnfold s c cs, multiUnfold s' c cs, herr s, herr s']
  · intro h1 h2
    cases concepts with
    | nil => exact ⟨_, rfl⟩
    | cons c cs =>
      have hmap := mapExcept_ok_of (conceptRetrieval s opts)
        (fun concept => searchCore s concept
          { opts with limit := opts.limit * 5 + opts.offset, mode := Mode.vector })
        (c :: cs)
        (fun a _ => searchConversations_eq_ok h1 h2)
      exact ⟨multiCore (c :: cs).length opts.limit opts.offset
          ((c :: cs).map (fun concept => searchCore s concept
            { opts with limit := opts.limit * 5 + opts.offset, mode := Mode.vector })),
        by rw [multiUnfold s c cs, hmap]⟩

theorem allVector_length_le (s : Store) (q : String) (af bf : Option String)
    (k : Nat) : (allVector s q af bf k).length ≤ k := by
  unfold allVector
  rw [List.length_take]
  exact Nat.min_le_left _ _

/-- The candidate stream §5 of the spec describes for one concept: the top
`limit × 5 + offset` nearest-neighbour results, in ascending-distance order
(modelled from the spec's words, for comparison with the code). -/
def specConceptWindow (s : Store) (concept : String) (limit offset : Nat)
    (after before : Option String) : List SearchResult :=
  (allVector s concept after before (limit * 5 + offset)).map
    (mkSearchResult s Mode.vector)

def eA2 : Exchange := ⟨"a", "p", "2025-01-01", "alpha", "x", "a.jsonl", 1, 2⟩

def eB2 : Exchange := ⟨"b", "p", "2025-01-02", "beta", "y", "b.jsonl", 1, 2⟩

def cexStore : Store :=
  { exchanges := [eA2, eB2]
    hasEmbedding := fun _ => true
    dist := fun _ i => if i == "a" then 0 else 2
    summaryOf := fun _ => none }

/-- C2 counterexample: with `limit = 1`, `offset = 1`, the candidate stream
actually used for the intersection for concept "c" is `["b"]`, although the
top `limit × 5 + offset = 6` nearest results are `["a", "b"]`: the nearest
candidate "a" is excluded before the intersection step (the inherited
offset is applied a second time inside the per-concept retrieval). -/
theorem c2_counterexample :
    (conceptRetrieval cexStore { limit := 1, offset := 1 } "c").toOption.map
      (fun r => r.results.map (fun x => x.exchange.id)) = some ["b"] ∧
    (specConceptWindow cexStore "c" 1 1 none none).map
      (fun x => x.exchange.id) = ["a", "b"] ∧
    (conceptRetrieval cexStore { limit := 1, offset := 1 } "c").toOption.map
      (fun r => r.results.map (fun x => x.exchange.id)) ≠
      some ((specConceptWindow cexStore "c" 1 1 none none).map
        (fun x => x.exchange.id)) := by
  refine ⟨by decide, by decide, by decide⟩

/-- C2 amended: the per-concept retrieval of `searchMultipleConcepts`
fetches the top `limit × 5 + 2·offset` nearest rows and drops the first
`offset` of them, so the stream used for the intersection consists of the
candidates at ranks `offset+1 .. limit × 5 + 2·offset`; only when
`offset = 0` is it exactly the top `limit × 5` window the spec describes. -/
theorem c2_amended_concept_stream (s : Store) (opts : SearchOptions)
    (c : String) (r : SearchResultWithPagination)
    (h : conceptRetrieval s opts c = Except.ok r) :
    r.results =
      (((allVector s c opts.after opts.before
          (opts.limit * 5 + opts.offset + opts.offset)).drop opts.offset).take
        (opts.limit * 5 + opts.offset)).map (mkSearchResult s Mode.vector) ∧
    (opts.offset = 0 →
      r.results = specConceptWindow s c opts.limit 0 opts.after opts.before) := by
  have hr := searchConversations_ok h
  constructor
  · rw [hr]
    rfl
  · intro h0
    rw [hr]
    have hres : (searchCore s c { opts with limit := opts.limit * 5 + opts.offset, mode := Mode.vector }).results =
        (((allVector s c opts.after opts.before
            (opts.limit * 5 + opts.offset + opts.offset)).drop opts.offset).take
          (opts.limit * 5 + opts.offset)).map (mkSearchResult s Mode.vector) := rfl
    rw [hres, h0]
    simp only [Nat.add_zero, List.drop_zero]
    unfold specConceptWindow
    rw [Nat.add_zero, List.take_of_length_le (allVector_length_le s c opts.after
      opts.before (opts.limit * 5))]

def wC2 : SearchResultWithPagination :=
  ⟨[⟨eB2, some (1 - 2), "beta", none⟩], ⟨2, 6, 1, false, none⟩⟩

/-- Witness for C2 (amended) at the concrete counterexample call. -/
theorem c2_amended_concept_stream_witness :
    wC2.results =
      (((allVector cexStore "c" none none (1 * 5 + 1 + 1)).drop 1).take
        (1 * 5 + 1)).map (mkSearchResult cexStore Mode.vector) ∧
    ((1 : Nat) = 0 →
      wC2.results = specConceptWindow cexStore "c" 1 0 none none) :=
  c2_amended_concept_stream cexStore { limit := 1, offset := 1 } "c" wC2 rfl

/-- Witness for C4 (amended) at a concrete invalid date (2025-02-30 is not
a real calendar day). -/
theorem c4_amended_date_validation_witness :
    (∃ a msg, (some "2025-02-30" : Option String) = some a ∧
      searchConversations emptyStore "q" { after := some "2025-02-30" } =
        Except.error msg ∧
      strContains msg "--after" = true ∧ strContains msg a = true) ∧
    searchConversations emptyStore "q" { after := some "2025-02-30" } =
      searchConversations cexStore "q" { after := some "2025-02-30" } :=
  (c4_amended_date_validation emptyStore cexStore "q" ["c"]
    { after := some "2025-02-30" }).1 (by decide)

theorem mem_page_of_mem {α : Type} {l : List α} {o k : Nat} {a : α}
    (ha : a ∈ (l.drop o).take k) : a ∈ l :=
  List.mem_of_mem_drop (List.mem_of_mem_take ha)

theorem mem_allVector_sub {s : Store} {q : String} {af bf : Option String}
    {k : Nat} {row : Row} (h : row ∈ allVector s q af bf k) :
    row ∈ vectorRows s q af bf :=
  (List.perm_insertionSort distLe (vectorRows s q af bf)).mem_iff.mp
    (List.mem_of_mem_take h)

theorem mem_vectorRows_dist {s : Store} {q : String} {af bf : Option String}
    {row : Row} (h : row ∈ vectorRows s q af bf) :
    row.2 = s.dist q row.1.id := by
  obtain ⟨e, _, he⟩ := List.mem_map.mp h
  rw [← he]

theorem textWindow_dist {s : Store} {q : String} {af bf : Option String}
    {k : Nat} {row : Row} (h : row ∈ textWindow s q af bf k) : row.2 = 0 := by
  obtain ⟨e, _, he⟩ := List.mem_map.mp h
  rw [← he]

def cex3Store : Store :=
  ⟨[eA2, eB2], fun i => i == "a", fun _ _ => 2, fun _ => none⟩

/-- C3 counterexample: in combined mode, the text-only row "b" (it matches
the query text but is not among the vector candidates, which are exactly
["a"]) is returned with a DEFINED similarity (namely `1 - 0 = 1` from the
placeholder distance), not an undefined one as the claim states. -/
theorem c3_counterexample :
    (allVector cex3Store "beta" none none (2 + 0)).map (fun v => v.1.id) = ["a"] ∧
    (searchConversations cex3Store "beta" { limit := 2 }).toOption.map
      (fun r => r.results.map (fun x => (x.exchange.id, x.similarity.isSome))) =
      some [("a", true), ("b", true)] := by
  exact ⟨by decide, by decide⟩

/-- C3 amended: `similarity` is undefined exactly in text mode. In vector
mode it is `1 - distance` of the vector match; in combined mode every
result has a defined similarity: `1 - distance` for rows coming from the
vector candidate stream, and `1 - 0` (the placeholder text distance, i.e.
similarity 1) for text-only rows. -/
theorem c3_amended_similarity (s : Store) (q : String) (opts : SearchOptions)
    (r : SearchResultWithPagination)
    (h : searchConversations s q opts = Except.ok r) :
    (opts.mode = Mode.text → ∀ res ∈ r.results, res.similarity = none) ∧
    (opts.mode = Mode.vector → ∀ res ∈ r.results,
      res.similarity = some (1 - s.dist q res.exchange.id)) ∧
    (opts.mode = Mode.both → ∀ res ∈ r.results,
      (res.exchange.id ∈ (allVector s q opts.after opts.before
          (opts.limit + opts.offset)).map (fun v => v.1.id) ∧
        res.similarity = some (1 - s.dist q res.exchange.id)) ∨
      (res.exchange.id ∉ (allVector s q opts.after opts.before
          (opts.limit + opts.offset)).map (fun v => v.1.id) ∧
        res.similarity = some (1 - 0))) := by
  have hr := searchConversations_ok h
  subst hr
  refine ⟨?_, ?_, ?_⟩
  · intro hm res hres
    obtain ⟨row, _, hrow⟩ := List.mem_map.mp hres
    rw [← hrow]
    simp [mkSearchResult, hm]
  · intro hm res hres
    obtain ⟨row, hrow, hrmk⟩ := List.mem_map.mp hres
    simp only [searchRows, hm] at hrow
    have hd := mem_vectorRows_dist (mem_allVector_sub (mem_page_of_mem hrow))
    rw [← hrmk]
    simp [mkSearchResult, hm, hd]
  · intro hm res hres
    obtain ⟨row, hrow, hrmk⟩ := List.mem_map.mp hres
    simp only [searchRows, hm] at hrow
    have hmerged := mem_page_of_mem hrow
    unfold bothMerged at hmerged
    rcases List.mem_append.mp hmerged with hav | htx
    · left
      have hd := mem_vectorRows_dist (mem_allVector_sub hav)
      constructor
      · rw [← hrmk]
        exact List.mem_map.mpr ⟨row, hav, rfl⟩
      · rw [← hrmk]
        simp [mkSearchResult, hm, hd]
    · right
      have hfil := List.mem_filter.mp htx
      have h0 : row.2 = 0 := textWindow_dist hfil.1
      constructor
      · rw [← hrmk]
        intro hmem
        obtain ⟨v, hvav, hvid⟩ := List.mem_map.mp hmem
        have hany : (allVector s q opts.after opts.before
            (opts.limit + opts.offset)).any
              (fun w => w.1.id == row.1.id) = true :=
          List.any_eq_true.mpr ⟨v, hvav, by simp [hvid, mkSearchResult]⟩
        rw [hany] at hfil
        exact Bool.noConfusion hfil.2
      · rw [← hrmk]
        simp [mkSearchResult, hm, h0]

def wC3 : SearchResultWithPagination :=
  ⟨[⟨eA2, some (1 - 2), "alpha", none⟩, ⟨eB2, some (1 - 0), "beta", none⟩],
    ⟨2, 2, 0, false, none⟩⟩

/-- Witness for C3 (amended) at a concrete combined-mode call. -/
theorem c3_amended_similarity_witness :
    (Mode.both = Mode.text → ∀ res ∈ wC3.results, res.similarity = none) ∧
    (Mode.both = Mode.vector → ∀ res ∈ wC3.results,
      res.similarity = some (1 - cex3Store.dist "beta" res.exchange.id)) ∧
    (Mode.both = Mode.both → ∀ res ∈ wC3.results,
      (res.exchange.id ∈ (allVector cex3Store "beta" none none (2 + 0)).map
          (fun v => v.1.id) ∧
        res.similarity = some (1 - cex3Store.dist "beta" res.exchange.id)) ∨
      (res.exchange.id ∉ (allVector cex3Store "beta" none none (2 + 0)).map
          (fun v => v.1.id) ∧
        res.similarity = some (1 - 0))) :=
  c3_amended_similarity cex3Store "beta" { limit := 2 } wC3 rfl


theorem vectorRows_ids_eq (s : Store) (q : String) (af bf : Option String) :
    (vectorRows s q af bf).map (fun v => v.1.id) =
      (s.exchanges.filter
        (fun e => s.hasEmbedding e.id && timePass af bf e)).map
        (fun e => e.id) := by
  unfold vectorRows
  rw [List.map_map]
  rfl

theorem allVector_ids_nodup (s : Store) (q : String) (af bf : Option String)
    (k : Nat) (hnd : (s.exchanges.map (fun e => e.id)).Nodup) :
    ((allVector s q af bf k).map (fun v => v.1.id)).Nodup := by
  have hfil : ((s.exchanges.filter
      (fun e => s.hasEmbedding e.id && timePass af bf e)).map
      (fun e => e.id)).Nodup :=
    hnd.sublist ((List.filter_sublist s.exchanges).map (fun e => e.id))
  have hsorted : (((List.insertionSort distLe (vectorRows s q af bf))).map
      (fun v => v.1.id)).Nodup := by
    rw [((List.perm_insertionSort distLe (vectorRows s q af bf)).map
      (fun v => v.1.id)).nodup_iff, vectorRows_ids_eq]
    exact hfil
  exact hsorted.sublist ((List.take_sublist k
    (List.insertionSort distLe (vectorRows s q af bf))).map
    (fun (v : Row) => v.1.id))

theorem textWindow_ids_nodup (s : Store) (q : String) (af bf : Option String)
    (k : Nat) (hnd : (s.exchanges.map (fun e => e.id)).Nodup) :
    ((textWindow s q af bf k).map (fun v => v.1.id)).Nodup := by
  unfold textWindow
  rw [List.map_map]
  have hcomp : ((fun (v : Row) => v.1.id) ∘ (fun e => (e, (0 : ℚ)))) =
      fun (e : Exchange) => e.id := rfl
  rw [hcomp]
  have hall : ((textRowsAll s q af bf).map (fun e => e.id)).Nodup :=
    hnd.sublist ((List.filter_sublist s.exchanges).map (fun e => e.id))
  have hsorted : ((sortedText s q af bf).map (fun e => e.id)).Nodup := by
    unfold sortedText
    rw [((List.perm_insertionSort tsDesc (textRowsAll s q af bf)).map
      (fun (e : Exchange) => e.id)).nodup_iff]
    exact hall
  exact hsorted.sublist ((List.take_sublist k (sortedText s q af bf)).map
    (fun (e : Exchange) => e.id))

theorem bothMerged_ids_nodup (s : Store) (q : String) (limit offset : Nat)
    (af bf : Option String)
    (hnd : (s.exchanges.map (fun e => e.id)).Nodup) :
    ((bothMerged s q limit offset af bf).map (fun v => v.1.id)).Nodup := by
  unfold bothMerged
  rw [List.map_append]
  refine List.nodup_append.mpr ⟨allVector_ids_nodup s q af bf _ hnd, ?_, ?_⟩
  · exact (textWindow_ids_nodup s q af bf (limit + offset) hnd).sublist
      ((List.filter_sublist (textWindow s q af bf (limit + offset))).map
        (fun (v : Row) => v.1.id))
  · intro x hxav hxfil
    obtain ⟨v, hvav, hvid⟩ := List.mem_map.mp hxav
    obtain ⟨w, hwfil, hwid⟩ := List.mem_map.mp hxfil
    have hcond := (List.mem_filter.mp hwfil).2
    have hany : (allVector s q af bf (limit + offset)).any
        (fun u => u.1.id == w.1.id) = true :=
      List.any_eq_true.mpr ⟨v, hvav, by simp [hvid, hwid]⟩
    rw [hany] at hcond
    exact Bool.noConfusion hcond

/-- C5: in combined mode (with distinct exchange ids in the store, as the
primary key guarantees) the returned page never repeats an exchange id, and
any page entry whose id occurs among the vector candidates is the
vector-sourced candidate, carrying its vector similarity. -/
theorem c5_combined_dedup (s : Store) (q : String) (opts : SearchOptions)
    (r : SearchResultWithPagination)
    (hnd : (s.exchanges.map (fun e => e.id)).Nodup)
    (hm : opts.mode = Mode.both)
    (h : searchConversations s q opts = Except.ok r) :
    (r.results.map (fun res => res.exchange.id)).Nodup ∧
    (∀ res ∈ r.results,
      res.exchange.id ∈ (allVector s q opts.after opts.before
          (opts.limit + opts.offset)).map (fun v => v.1.id) →
      ∃ v ∈ allVector s q opts.after opts.before (opts.limit + opts.offset),
        res = mkSearchResult s Mode.both v ∧
        res.similarity = some (1 - s.dist q res.exchange.id)) := by
  have hr := searchConversations_ok h
  subst hr
  constructor
  · unfold searchCore
    simp only [searchRows, hm]
    rw [List.map_map]
    have hcomp : ((fun (res : SearchResult) => res.exchange.id) ∘
        mkSearchResult s Mode.both) = fun (row : Row) => row.1.id := rfl
    rw [hcomp, List.map_take, List.map_drop]
    exact (bothMerged_ids_nodup s q opts.limit opts.offset opts.after
      opts.before hnd).sublist
      ((List.take_sublist _ _).trans (List.drop_sublist _ _))
  · intro res hres hid
    obtain ⟨row, hrow, hrmk⟩ := List.mem_map.mp hres
    rw [hm] at hrmk
    simp only [searchRows, hm] at hrow
    have hmerged := mem_page_of_mem hrow
    unfold bothMerged at hmerged
    rcases List.mem_append.mp hmerged with hav | htx
    · have hd := mem_vectorRows_dist (mem_allVector_sub hav)
      refine ⟨row, hav, hrmk.symm, ?_⟩
      rw [← hrmk]
      simp [mkSearchResult, hm, hd]
    · exfalso
      have hfil := List.mem_filter.mp htx
      rw [← hrmk] at hid
      obtain ⟨v, hvav, hvid⟩ := List.mem_map.mp hid
      have hany : (allVector s q opts.after opts.before
          (opts.limit + opts.offset)).any
            (fun u => u.1.id == row.1.id) = true :=
        List.any_eq_true.mpr ⟨v, hvav, by simp [hvid, mkSearchResult]⟩
      rw [hany] at hfil
      exact Bool.noConfusion hfil.2

/-- Witness for C5 at a concrete combined-mode call. -/
theorem c5_combined_dedup_witness :
    (wC3.results.map (fun res => res.exchange.id)).Nodup ∧
    (∀ res ∈ wC3.results,
      res.exchange.id ∈ (allVector cex3Store "beta" none none (2 + 0)).map
        (fun v => v.1.id) →
      ∃ v ∈ allVector cex3Store "beta" none none (2 + 0),
        res = mkSearchResult cex3Store Mode.both v ∧
        res.similarity = some (1 - cex3Store.dist "beta" res.exchange.id)) :=
  c5_combined_dedup cex3Store "beta" { limit := 2 } wC3 (by decide) rfl rfl

theorem buildMulti_shape {n : Nat} {pairs : List (SearchResult × Nat)}
    {res : MultiConceptResult} (h : res ∈ buildMulti n pairs) :
    res.conceptSimilarities.length = n ∧
    res.averageSimilarity =
      res.conceptSimilarities.sum / (res.conceptSimilarities.length : ℚ) := by
  unfold buildMulti at h
  obtain ⟨key, _, hsome⟩ := List.mem_filterMap.mp h
  simp only [] at hsome
  split at hsome
  · split at hsome
    · exact Option.noConfusion hsome
    · rw [← Option.some.inj hsome]
      refine ⟨?_, rfl⟩
      simp
  · exact Option.noConfusion hsome

/-- C6: every multi-concept result carries one similarity per concept, its
average is the exact arithmetic mean of those similarities, and the page is
sorted by average similarity in descending order. -/
theorem c6_multi_mean_and_sort (s : Store) (concepts : List String)
    (opts : SearchOptions) (r : MultiConceptResultWithPagination)
    (hne : concepts ≠ [])
    (h : searchMultipleConcepts s concepts opts = Except.ok r) :
    (∀ res ∈ r.results,
      res.conceptSimilarities.length = concepts.length ∧
      res.averageSimilarity =
        res.conceptSimilarities.sum / (res.conceptSimilarities.length : ℚ)) ∧
    r.results.Pairwise avgGe := by
  obtain ⟨cr, _, hr⟩ := searchMultipleConcepts_ok hne h
  rw [hr]
  constructor
  · intro res hres
    simp only [multiCore] at hres
    have h1 : res ∈ multiSorted concepts.length cr := mem_page_of_mem hres
    have h2 : res ∈ buildMulti concepts.length (pairsOf cr) := by
      unfold multiSorted at h1
      exact (List.perm_insertionSort avgGe _).mem_iff.mp h1
    exact buildMulti_shape h2
  · have hs : (multiSorted concepts.length cr).Pairwise avgGe :=
      List.sorted_insertionSort avgGe (buildMulti concepts.length (pairsOf cr))
    exact hs.sublist ((List.take_sublist _ _).trans (List.drop_sublist _ _))

/-- Witness for C6 at a concrete call. -/
theorem c6_multi_mean_and_sort_witness :
    (∀ res ∈ emptyMulti.results,
      res.conceptSimilarities.length = (["c"] : List String).length ∧
      res.averageSimilarity =
        res.conceptSimilarities.sum / (res.conceptSimilarities.length : ℚ)) ∧
    emptyMulti.results.Pairwise avgGe :=
  c6_multi_mean_and_sort emptyStore ["c"] {} emptyMulti (by simp) rfl

/-- C10: in combined mode the returned page is exactly the
`slice(offset, offset + limit)` window of the concatenation of the vector
candidates (ascending distance) followed by the unseen text candidates
(descending timestamp); no global re-sort by similarity happens. -/
theorem c10_combined_window (s : Store) (q : String) (opts : SearchOptions)
    (r : SearchResultWithPagination)
    (hm : opts.mode = Mode.both)
    (h : searchConversations s q opts = Except.ok r) :
    r.results =
      (((allVector s q opts.after opts.before (opts.limit + opts.offset) ++
        (textWindow s q opts.after opts.before
          (opts.limit + opts.offset)).filter
          (fun row => !((allVector s q opts.after opts.before
            (opts.limit + opts.offset)).any
              (fun v => v.1.id == row.1.id)))).drop opts.offset).take
        opts.limit).map (mkSearchResult s Mode.both) ∧
    (allVector s q opts.after opts.before
      (opts.limit + opts.offset)).Pairwise distLe ∧
    ((sortedText s q opts.after opts.before).take
      (opts.limit + opts.offset)).Pairwise tsDesc := by
  refine ⟨?_, ?_, ?_⟩
  · rw [searchConversations_ok h]
    unfold searchCore
    simp only [searchRows, hm]
    rfl
  · exact (List.sorted_insertionSort distLe (vectorRows s q opts.after
      opts.before)).sublist (List.take_sublist _ _)
  · exact (List.sorted_insertionSort tsDesc (textRowsAll s q opts.after
      opts.before)).sublist (List.take_sublist _ _)

/-- Witness for C10 at a concrete combined-mode call. -/
theorem c10_combined_window_witness :
    wC3.results =
      (((allVector cex3Store "beta" none none (2 + 0) ++
        (textWindow cex3Store "beta" none none (2 + 0)).filter
          (fun row => !((allVector cex3Store "beta" none none (2 + 0)).any
            (fun v => v.1.id == row.1.id)))).drop 0).take 2).map
        (mkSearchResult cex3Store Mode.both) ∧
    (allVector cex3Store "beta" none none (2 + 0)).Pairwise distLe ∧
    ((sortedText cex3Store "beta" none none).take (2 + 0)).Pairwise tsDesc :=
  c10_combined_window cex3Store "beta" { limit := 2 } wC3 rfl rfl
